import Mathlib

/-!
Verification of the transaction submission and retry engine of this
near-api-js fork.

The definitions below are a shallow embedding of the TypeScript sources:
`Account` (src/esm/account.js) and `WalletRpcProvider`
(src/unnamed/part_000).  Stateful JavaScript (the access-key cache, the
retry loop) is modelled by explicit state passing; `async` suspension
points relevant to the claims are exposed as explicit phase functions;
fallible code returns `Except`.  Helpers that live in this repository but
outside the provided sources (`exponentialBackoff`, `parseRpcError`,
`parseResultError`) are modelled from the specification and marked as such
in their doc comments.
-/

/-- A JavaScript error value as the engine observes it.  A `TypedError`
carries `type = some kind`; plain runtime errors carry `type = none`.
`context` models the `ErrorContext` attached before a fatal re-raise. -/
structure Err where
  type : Option String
  message : String
  context : Option String
deriving DecidableEq, Repr

/-- Mirrors `new TypedError(message, kind)` from src/utils/errors. -/
def typedError (message kind : String) : Err :=
  { type := some kind, message := message, context := none }

/-- The access-key state object held in `accessKeyByPublicKeyCache`.  Only
the nonce is relevant to the engine; the permission payload is opaque. -/
structure AccessKey where
  nonce : Nat
deriving DecidableEq, Repr

/-- Association-list lookup keyed by strings, mirroring JS property read. -/
def assocLookup {α : Type} : List (String × α) → String → Option α
  | [], _ => none
  | (k', v) :: rest, k => if k' = k then some v else assocLookup rest k

/-- `accessKeyByPublicKeyCache`: a JS object mapping public-key strings to
access-key state, modelled as an association list with unique keys. -/
def Cache : Type := List (String × AccessKey)

def cacheLookup (c : Cache) (k : String) : Option AccessKey :=
  assocLookup c k

/-- Mirrors the JS assignment `cache[k] = v`: replaces the binding in
place when present, appends a fresh binding otherwise. -/
def cacheSet : Cache → String → AccessKey → Cache
  | [], k, v => [(k, v)]
  | (k', v') :: rest, k, v =>
    if k' = k then (k, v) :: rest else (k', v') :: cacheSet rest k v

/-- Mirrors the JS statement `delete cache[k]`. -/
def cacheDelete : Cache → String → Cache
  | [], _ => []
  | (k', v') :: rest, k =>
    if k' = k then cacheDelete rest k else (k', v') :: cacheDelete rest k

/-- Number of bindings a cache holds for one public key. -/
def cacheCountKey (c : Cache) (k : String) : Nat :=
  (c.filter (fun p => p.1 = k)).length

/-- A JSON-ish error payload: either a primitive string or an object whose
fields again hold payloads.  This is the shape `error.data` and the
outcome `status.Failure` take on the wire. -/
inductive ErrTree where
  | leaf (s : String)
  | node (fields : List (String × ErrTree))

/-- JS string coercion of a payload as it appears inside templates. -/
def ErrTree.jsString : ErrTree → String
  | .leaf s => s
  | .node _ => "[object Object]"

/-- JS truthiness of an optional field value: absent and the empty string
are falsy, objects and non-empty strings are truthy. -/
def truthyField : Option ErrTree → Bool
  | none => false
  | some (.leaf s) => !(s = "")
  | some (.node _) => true

/-- First field of an object whose value is itself an object. -/
def firstNodeField : List (String × ErrTree) → Option (List (String × ErrTree))
  | [] => none
  | (_, .node fs) :: _ => some fs
  | _ :: rest => firstNodeField rest

/-- First field of an object whose value is a primitive string. -/
def firstLeafField : List (String × ErrTree) → Option (String × String)
  | [] => none
  | (k, .leaf s) :: _ => some (k, s)
  | _ :: rest => firstLeafField rest

/-- Modelled from the spec: the structured-shape half of the error
classifier (`parseRpcError` in src/utils/rpc_errors, which is not among
the provided sources).  Spec 4.2: recursively descend a tagged tree, the
nested tag key determining the next descent; the terminal leaf tag becomes
the kind and its value the message; fall back to an `UntypedError` kind.
Spec 9 asks for an explicit depth guard on the descent, supplied here as
fuel. -/
def classifyFields : Nat → List (String × ErrTree) → Err
  | 0, _ => typedError "" "UntypedError"
  | d + 1, fields =>
    match firstNodeField fields with
    | some inner => classifyFields d inner
    | none =>
      match firstLeafField fields with
      | some (k, v) => typedError v k
      | none => typedError "" "UntypedError"

/-- Modelled from the spec: `parseRpcError` applied to a raw payload
(spec 4.2, shapes 2 and 3 collapsed to the part the claims exercise). -/
def parseRpcError : ErrTree → Err
  | .leaf s => typedError s "UntypedError"
  | .node fields => classifyFields 32 fields

/-! ## Execution outcomes (provider results consumed by `Account`) -/

/-- The `status` field of an execution outcome: either a primitive string
or a JS object (such as one holding a `Failure` or `SuccessValue` field). -/
inductive OStatus where
  | basic (s : String)
  | obj (fields : List (String × ErrTree))

/-- JS read of `status.Failure`: `none` models `undefined`. -/
def OStatus.failureField : OStatus → Option ErrTree
  | .basic _ => none
  | .obj fields => assocLookup fields "Failure"

/-- The guard `typeof status === 'object' && typeof status.Failure === 'object'`
used both by the flattening and by the terminal status check. -/
def statusFailureIsObject (st : OStatus) : Bool :=
  match st with
  | .basic _ => false
  | .obj fields =>
    match assocLookup fields "Failure" with
    | some (.node _) => true
    | _ => false

structure ExecutionOutcome where
  receipt_ids : List String
  logs : List String
  status : OStatus

structure OutcomeWithId where
  id : String
  outcome : ExecutionOutcome

/-- A `FinalExecutionOutcome` as returned by `sendTransaction`. -/
structure FinalOutcome where
  status : OStatus
  transaction_outcome : OutcomeWithId
  receipts_outcome : List OutcomeWithId

/-- Modelled from the spec: `parseResultError` (src/utils/rpc_errors, not
among the provided sources) runs the general classifier on the top-level
`status.Failure` of an outcome (spec 4.5, last sentence). -/
def parseResultError (result : FinalOutcome) : Err :=
  match result.status.failureField with
  | some t => parseRpcError t
  | none => typedError "" "UntypedError"

/-! ## The backoff executor -/

/-- Result of one attempt inside a retry loop: the JS `null` retry-signal,
a final value, or a raise. -/
inductive AttemptOut (α : Type) where
  | retry
  | done (v : α)
  | raise (e : Err)

/-- Terminal result of the executor: a final value, a propagated raise, or
the retry-signal itself after exhaustion. -/
inductive BackoffResult (α : Type) where
  | ok (v : α)
  | raise (e : Err)
  | exhausted

/-- Modelled from the spec: `exponentialBackoff`
(src/utils/exponential-backoff, which is not among the provided sources).
Spec 4.1: invoke the attempt function; a raise propagates immediately, a
final result returns immediately, and after `maxAttempts` retry-signals
the executor returns the retry-signal itself, leaving exhaustion handling
to the caller.  The model threads explicit per-attempt state, numbers the
attempts so the caller can supply per-attempt environments, and also
returns how many attempts ran; the delay schedule is not modelled. -/
def exponentialBackoff {σ α : Type} (step : Nat → σ → AttemptOut α × σ) :
    Nat → Nat → σ → BackoffResult α × σ × Nat
  | 0, _, st => (.exhausted, st, 0)
  | fuel + 1, i, st =>
    match step i st with
    | (.done v, st') => (.ok v, st', 1)
    | (.raise e, st') => (.raise e, st', 1)
    | (.retry, st') =>
      match exponentialBackoff step fuel (i + 1) st' with
      | (r, st'', n) => (r, st'', n + 1)

/-! ## The RPC request channel (`WalletRpcProvider.sendJsonRpc`) -/

/-- The `error` field of an RPC response object: `{code, message, data}`. -/
structure RpcErrObj where
  code : Int
  message : String
  data : ErrTree

/-- An RPC response object: an optional `error` field plus an opaque
payload standing for every other property. -/
structure RpcObj where
  error : Option RpcErrObj
  payload : String

/-- The JS values flowing through `sendJsonRpc`: `null`, `undefined`, an
array of transaction-hash strings, or a response object. -/
inductive JsLite where
  | jnull
  | jundef
  | jarr (elems : List String)
  | jobj (o : RpcObj)

/-- Substring test used for the `includes` calls of the timeout check. -/
def strContains (s pat : String) : Bool :=
  (s.splitOn pat).length > 1

def REQUEST_RETRY_NUMBER : Nat := 12

/-- One pass through the `try` block of the attempt closure inside
`sendJsonRpc` (src/unnamed/part_000, lines 444-478): inspect the proxy
response, follow up on array responses with a `tx` status query for the
provider's current account, classify an `error` field (legacy shape
directly, structured shape through `parseRpcError`, primitive data through
the timeout heuristics and `getErrorTypeFromErrorMessage`), and hand back
error-free responses unchanged.  `getErrorType` abstracts
`getErrorTypeFromErrorMessage` and `txFollow` abstracts the nested
`txStatusString` call, both living outside the provided sources. -/
def attemptBody (getErrorType : String → String)
    (txFollow : Option String → String → Except Err JsLite)
    (account : String) (proxyResp : Except Err JsLite) : Except Err JsLite :=
  match proxyResp with
  | .error e => .error e
  | .ok r =>
    match r with
    | .jarr elems => txFollow elems.head? account
    | .jobj o =>
      match o.error with
      | some err =>
        match err.data with
        | .node fields =>
          match assocLookup fields "error_message", assocLookup fields "error_type" with
          | some (.leaf m), some (.leaf t) => .error (typedError m t)
          | _, _ => .error (parseRpcError (.node fields))
        | .leaf s =>
          let errorMessage := "[" ++ toString err.code ++ "] " ++ err.message ++ ": " ++ s
          if s = "Timeout" || strContains errorMessage "Timeout error"
              || strContains errorMessage "query has timed out" then
            .error (typedError errorMessage "TimeoutError")
          else
            .error (typedError errorMessage (getErrorType s))
      | none => .ok r
    | .jnull => .error { type := none, message := "TypeError: cannot read error of null", context := none }
    | .jundef => .error { type := none, message := "TypeError: cannot read error of undefined", context := none }

/-- The whole attempt closure of `sendJsonRpc` (lines 443-489): run the
`try` body, and in the `catch`, turn a `TimeoutError`-typed error into the
retry-signal (warning unless `NEAR_NO_LOGS` is set) while re-raising every
other error.  The boolean reports whether a warning was emitted. -/
def sendAttempt (getErrorType : String → String)
    (txFollow : Option String → String → Except Err JsLite)
    (account : String) (noLogs : Bool) (proxyResp : Except Err JsLite) :
    AttemptOut JsLite × Bool :=
  match attemptBody getErrorType txFollow account proxyResp with
  | .ok v => (.done v, false)
  | .error e =>
    if e.type = some "TimeoutError" then (.retry, !noLogs)
    else (.raise e, false)

/-- `WalletRpcProvider.sendJsonRpc` (src/unnamed/part_000, lines 442-500):
run the attempt closure under the backoff executor with 12 attempts, then
apply the post-loop check `typeof result === 'undefined'` before returning
the result.  On executor exhaustion the executor hands back the `null`
retry-signal, which the model makes explicit.  Returns the call result
together with the number of warnings emitted and of attempts run. -/
def sendJsonRpc (method : String) (getErrorType : String → String)
    (txFollow : Option String → String → Except Err JsLite)
    (account : String) (noLogs : Bool) (env : Nat → Except Err JsLite) :
    Except Err JsLite × Nat × Nat :=
  let step := fun (i : Nat) (warns : Nat) =>
    match sendAttempt getErrorType txFollow account noLogs (env i) with
    | (out, warned) => (out, if warned then warns + 1 else warns)
  match exponentialBackoff step REQUEST_RETRY_NUMBER 0 0 with
  | (.raise e, warns, n) => (.error e, warns, n)
  | (r, warns, n) =>
    let result : JsLite :=
      match r with
      | .ok v => v
      | _ => .jnull
    if result matches .jundef then
      (.error (typedError ("Exceeded " ++ toString REQUEST_RETRY_NUMBER
        ++ " attempts for request to " ++ method ++ ".") "RetriesExceeded"), warns, n)
    else
      (.ok result, warns, n)

/-! ## Access-key resolution and signing (`Account`) -/

/-- Environment one `signTransaction` call consumes: the signer's public
key (or `none`), the result of the `view_access_key` network query (used
only on a cache miss), and the finalized reference block hash. -/
structure SignEnv where
  pubKey : Option String
  queryRes : Except Err AccessKey
  blockHash : String

/-- The re-check of `findAccessKey` after its network query resolves
(src/esm/account.js, lines 190-194): if a concurrent resolution populated
the cache while the query was in flight, discard the network response and
return the cached entry; otherwise cache and return the response.  The
cache argument is the cache as it stands when the response arrives. -/
def findAccessKeyResume (cache : Cache) (pk : String) (resp : AccessKey) :
    AccessKey × Cache :=
  match cacheLookup cache pk with
  | some cached => (cached, cache)
  | none => (resp, cacheSet cache pk resp)

/-- `Account.findAccessKey` (src/esm/account.js, lines 169-202) run as one
sequential flow: obtain the public key from the signer (absent means
not-found), return a cached entry directly, otherwise consult the network
query result and resume; an `AccessKeyDoesNotExist` failure of the query
means not-found, any other failure propagates. -/
def findAccessKey (env : SignEnv) (cache : Cache) :
    Except Err (Option (String × AccessKey) × Cache) :=
  match env.pubKey with
  | none => .ok (none, cache)
  | some pk =>
    match cacheLookup cache pk with
    | some cached => .ok (some (pk, cached), cache)
    | none =>
      match env.queryRes with
      | .ok accessKey =>
        match findAccessKeyResume cache pk accessKey with
        | (entry, cache') => .ok (some (pk, entry), cache')
      | .error e =>
        if e.type = some "AccessKeyDoesNotExist" then .ok (none, cache)
        else .error e

/-- The transaction built and signed by `signTransaction`; the signature
itself is delegated to the opaque signer and not modelled. -/
structure SignedTx where
  receiverId : String
  publicKey : String
  nonce : Nat
  actions : List String
  blockHash : String
deriving DecidableEq, Repr

/-- The `KeyNotFound` error thrown by `signTransaction` (line 87). -/
def keyNotFoundError (accountId networkId : String) : Err :=
  typedError ("Can not sign transactions for account " ++ accountId
    ++ " on network " ++ networkId
    ++ ", no matching key pair found in signer.") "KeyNotFound"

/-- `Account.signTransaction` (src/esm/account.js, lines 84-94): resolve
the access key (raising `KeyNotFound` on not-found), then pre-increment
the cached nonce in place (`const nonce = ++accessKey.nonce`) and build
the transaction over the fresh nonce and reference block hash.  The
in-place `++` on the shared cache object is modelled by writing the
incremented entry back to the cache. -/
def signTransaction (accountId networkId : String) (env : SignEnv)
    (cache : Cache) (receiverId : String) (actions : List String) :
    Except Err (SignedTx × Cache) :=
  match findAccessKey env cache with
  | .error e => .error e
  | .ok (none, _) => .error (keyNotFoundError accountId networkId)
  | .ok (some (pk, accessKey), cache') =>
    let nonce := accessKey.nonce + 1
    .ok ({ receiverId := receiverId, publicKey := pk, nonce := nonce,
           actions := actions, blockHash := env.blockHash },
         cacheSet cache' pk { nonce := nonce })

/-- Nonces issued by `k` successive `signTransaction` calls under one
signing key, each attempt running against the cache the previous attempt
left behind (the network query result is irrelevant on cache hits). -/
def signNonces (accountId networkId pk blockHash receiverId : String)
    (actions : List String) : Nat → Cache → List Nat
  | 0, _ => []
  | k + 1, cache =>
    match signTransaction accountId networkId
        { pubKey := some pk, queryRes := .ok { nonce := 0 }, blockHash := blockHash }
        cache receiverId actions with
    | .ok (stx, cache') =>
      stx.nonce :: signNonces accountId networkId pk blockHash receiverId actions k cache'
    | .error _ => []

/-! ## Outcome flattening and the terminal status check -/

/-- One entry of the flattened log/failure report. -/
structure FlatEntry where
  receiptIds : List String
  logs : List String
  failure : Option Err

/-- The entry `flatLogs` builds for an outcome it keeps (lines 138-142). -/
def mkFlatEntry (o : ExecutionOutcome) : FlatEntry :=
  { receiptIds := o.receipt_ids, logs := o.logs,
    failure := (OStatus.failureField o.status).map parseRpcError }

/-- The `flatLogs` reduction of `signAndSendTransactionV2`
(src/esm/account.js, lines 135-146): fold the transaction outcome and the
receipt outcomes left to right, appending an entry for every outcome with
non-empty logs or an object-valued `Failure` status. -/
def flatLogs (result : FinalOutcome) : List FlatEntry :=
  (result.transaction_outcome :: result.receipts_outcome).foldl
    (fun acc it =>
      if !it.outcome.logs.isEmpty || statusFailureIsObject it.outcome.status then
        acc ++ [mkFlatEntry it.outcome]
      else acc)
    []

/-- The terminal status check of `signAndSendTransactionV2` (lines
148-158): a top-level object status with an object `Failure` raises — via
the legacy fields directly when both are truthy, via `parseResultError`
otherwise; every other status returns the outcome. -/
def handleFinalStatus (result : FinalOutcome) : Except Err FinalOutcome :=
  match result.status with
  | .obj fields =>
    match assocLookup fields "Failure" with
    | some (.node ffields) =>
      let em := assocLookup ffields "error_message"
      let et := assocLookup ffields "error_type"
      if truthyField em && truthyField et then
        .error (typedError ("Transaction " ++ result.transaction_outcome.id
          ++ " failed. " ++ ErrTree.jsString ((em.getD (.leaf ""))))
          (ErrTree.jsString (et.getD (.leaf ""))))
      else
        .error (parseResultError result)
    | _ => .ok result
  | _ => .ok result

/-! ## The submission loop (`Account.signAndSendTransactionV2`) -/

/-- Environment one submission attempt consumes: the signing environment
plus the channel's answer to `sendTransaction`. -/
structure SendEnv where
  pubKey : Option String
  queryRes : Except Err AccessKey
  blockHash : String
  sendResult : Except Err FinalOutcome

/-- The attempt closure of `signAndSendTransactionV2` (src/esm/account.js,
lines 111-130): sign (a signing failure escapes the `try` and propagates),
submit, and classify a rejection — `InvalidNonce` deletes the public key's
cache entry and yields the retry-signal, `Expired` yields the retry-signal
with the cache untouched, anything else gets the transaction-hash context
attached and is re-raised.  The state is the cache paired with the number
of cache invalidations performed. -/
def sasAttempt (accountId networkId : String) (txHashOf : SignedTx → String)
    (receiverId : String) (actions : List String) (env : SendEnv)
    (st : Cache × Nat) : AttemptOut FinalOutcome × (Cache × Nat) :=
  match signTransaction accountId networkId
      { pubKey := env.pubKey, queryRes := env.queryRes, blockHash := env.blockHash }
      st.1 receiverId actions with
  | .error e => (.raise e, st)
  | .ok (signedTx, cache') =>
    match env.sendResult with
    | .ok outcome => (.done outcome, (cache', st.2))
    | .error e =>
      if e.type = some "InvalidNonce" then
        (.retry, (cacheDelete cache' signedTx.publicKey, st.2 + 1))
      else if e.type = some "Expired" then
        (.retry, (cache', st.2))
      else
        (.raise { e with context := some (txHashOf signedTx) }, (cache', st.2))

def TX_NONCE_RETRY_NUMBER : Nat := 12

/-- The `RetriesExceeded` error of the nonce-retry loop (line 133). -/
def nonceRetriesExceededError : Err :=
  typedError ("nonce retries exceeded for transaction. This usually means "
    ++ "there are too many parallel requests with the same access key.") "RetriesExceeded"

/-- `Account.signAndSendTransactionV2` (src/esm/account.js, lines
108-159): run the attempt closure under the backoff executor with 12
attempts; a falsy loop result (the `null` retry-signal after exhaustion)
raises `RetriesExceeded`; a successful outcome runs the terminal status
check (the flattened report only feeds suppressible console output).
Returns the terminal result, the final cache with the invalidation count,
and the number of attempts run. -/
def signAndSendTransactionV2 (accountId networkId : String)
    (txHashOf : SignedTx → String) (receiverId : String)
    (actions : List String) (env : Nat → SendEnv) (cache : Cache) :
    Except Err FinalOutcome × (Cache × Nat) × Nat :=
  match exponentialBackoff
      (fun i st => sasAttempt accountId networkId txHashOf receiverId actions (env i) st)
      TX_NONCE_RETRY_NUMBER 0 (cache, 0) with
  | (.raise e, st, n) => (.error e, st, n)
  | (.exhausted, st, n) => (.error nonceRetriesExceededError, st, n)
  | (.ok outcome, st, n) => (handleFinalStatus outcome, st, n)

/-! ## Cache lemmas -/

theorem cacheLookup_set_self (c : Cache) (k : String) (v : AccessKey) :
    cacheLookup (cacheSet c k v) k = some v := by
  induction c with
  | nil => simp [cacheSet, cacheLookup, assocLookup]
  | cons hd tl ih =>
    by_cases h : hd.1 = k
    · simp [cacheSet, h, cacheLookup, assocLookup]
    · simpa [cacheSet, h, cacheLookup, assocLookup] using ih

theorem cacheLookup_delete_self (c : Cache) (k : String) :
    cacheLookup (cacheDelete c k) k = none := by
  induction c with
  | nil => simp [cacheDelete, cacheLookup, assocLookup]
  | cons hd tl ih =>
    by_cases h : hd.1 = k
    · simpa [cacheDelete, h] using ih
    · simpa [cacheDelete, h, cacheLookup, assocLookup] using ih

theorem cacheCountKey_eq_zero_of_lookup_none (c : Cache) (k : String)
    (h : cacheLookup c k = none) : cacheCountKey c k = 0 := by
  induction c with
  | nil => rfl
  | cons hd tl ih =>
    by_cases hk : hd.1 = k
    · simp [cacheLookup, assocLookup, hk] at h
    · simp only [cacheLookup, assocLookup, hk, if_neg] at h
      simp [cacheCountKey, List.filter_cons, hk] at ih ⊢
      exact ih h

theorem cacheCountKey_set_of_lookup_none (c : Cache) (k : String) (v : AccessKey)
    (h : cacheLookup c k = none) : cacheCountKey (cacheSet c k v) k = 1 := by
  induction c with
  | nil => simp [cacheSet, cacheCountKey, List.filter_cons]
  | cons hd tl ih =>
    by_cases hk : hd.1 = k
    · simp [cacheLookup, assocLookup, hk] at h
    · simp only [cacheLookup, assocLookup, hk, if_neg] at h
      simp [cacheSet, hk, cacheCountKey, List.filter_cons] at ih ⊢
      exact ih h

/-! ## Step lemmas -/

theorem signTransaction_cache_hit (accountId networkId : String) (env : SignEnv)
    (cache : Cache) (receiverId : String) (actions : List String) (pk : String) (n : Nat)
    (hpk : env.pubKey = some pk) (h : cacheLookup cache pk = some { nonce := n }) :
    signTransaction accountId networkId env cache receiverId actions
      = .ok ({ receiverId := receiverId, publicKey := pk, nonce := n + 1,
               actions := actions, blockHash := env.blockHash },
             cacheSet cache pk { nonce := n + 1 }) := by
  simp [signTransaction, findAccessKey, hpk, h]

theorem signTransaction_cache_miss_query_ok (accountId networkId : String)
    (env : SignEnv) (cache : Cache) (receiverId : String) (actions : List String)
    (pk : String) (ak : AccessKey) (hpk : env.pubKey = some pk)
    (hmiss : cacheLookup cache pk = none) (hq : env.queryRes = .ok ak) :
    signTransaction accountId networkId env cache receiverId actions
      = .ok ({ receiverId := receiverId, publicKey := pk, nonce := ak.nonce + 1,
               actions := actions, blockHash := env.blockHash },
             cacheSet (cacheSet cache pk ak) pk { nonce := ak.nonce + 1 }) := by
  simp [signTransaction, findAccessKey, hpk, hmiss, hq, findAccessKeyResume]

theorem handleFinalStatus_basic (result : FinalOutcome) (s : String)
    (h : result.status = .basic s) : handleFinalStatus result = .ok result := by
  simp [handleFinalStatus, h]

theorem flatFold_eq (l : List OutcomeWithId) (acc : List FlatEntry) :
    l.foldl
      (fun acc it =>
        if !it.outcome.logs.isEmpty || statusFailureIsObject it.outcome.status then
          acc ++ [mkFlatEntry it.outcome]
        else acc) acc
      = acc ++ (l.filter
          (fun it => !it.outcome.logs.isEmpty || statusFailureIsObject it.outcome.status)).map
          (fun it => mkFlatEntry it.outcome) := by
  induction l generalizing acc with
  | nil => simp
  | cons hd tl ih =>
    cases hcond : (!hd.outcome.logs.isEmpty || statusFailureIsObject hd.outcome.status) with
    | true =>
      simp only [List.foldl_cons, List.filter_cons, hcond]
      rw [ih]
      simp
    | false =>
      simp only [List.foldl_cons, List.filter_cons, hcond]
      rw [ih]
      simp

theorem signNonces_closed_form (accountId networkId pk blockHash receiverId : String)
    (actions : List String) :
    ∀ (k : Nat) (cache : Cache) (n : Nat), cacheLookup cache pk = some { nonce := n } →
      signNonces accountId networkId pk blockHash receiverId actions k cache
        = (List.range k).map (fun i => n + 1 + i) := by
  intro k
  induction k with
  | zero => intro cache n h; simp [signNonces]
  | succ k ih =>
    intro cache n h
    rw [signNonces, signTransaction_cache_hit accountId networkId _ cache receiverId
      actions pk n rfl h]
    show (n + 1) :: signNonces accountId networkId pk blockHash receiverId actions k
        (cacheSet cache pk { nonce := n + 1 }) = _
    rw [ih (cacheSet cache pk { nonce := n + 1 }) (n + 1) (cacheLookup_set_self cache pk _)]
    rw [List.range_succ_eq_map, List.map_cons, List.map_map]
    refine congrArg₂ _ (by omega) (List.map_congr_left ?_)
    intro a _
    simp [Function.comp]
    omega

/-! ## Claim theorems -/

/-- Claim C9: for every successful outcome, the flattened report built by
`signAndSendTransaction` contains exactly those outcomes — the transaction
outcome followed by each receipt outcome, in order — whose logs list is
non-empty or whose status is an object with an object-valued `Failure`
field; each entry carries that outcome's receipt ids, its logs, and its
parsed failure (`none` when there is no `Failure` field). -/
theorem flatLogs_exactly_filtered_outcomes (result : FinalOutcome) :
    flatLogs result
      = ((result.transaction_outcome :: result.receipts_outcome).filter
          (fun it => !it.outcome.logs.isEmpty || statusFailureIsObject it.outcome.status)).map
          (fun it =>
            { receiptIds := it.outcome.receipt_ids, logs := it.outcome.logs,
              failure := (OStatus.failureField it.outcome.status).map parseRpcError }) := by
  rw [flatLogs, flatFold_eq]
  simp [mkFlatEntry]

/-- Claim C1: `Account.signTransaction` pre-increments the cached nonce in
place — a cache entry holding nonce `n` signs with `n + 1` and leaves
`n + 1` in the cache — so successive signing attempts from one cache entry
issue pairwise strictly increasing nonces: each attempt's nonce is
strictly greater than every nonce previously issued for that key, with no
duplicates. -/
theorem account_signTransaction_nonce_strictly_increasing
    (accountId networkId pk blockHash receiverId : String) (actions : List String)
    (cache : Cache) (n : Nat) (env : SignEnv)
    (hpk : env.pubKey = some pk) (h : cacheLookup cache pk = some { nonce := n }) :
    (signTransaction accountId networkId env cache receiverId actions
        = .ok ({ receiverId := receiverId, publicKey := pk, nonce := n + 1,
                 actions := actions, blockHash := env.blockHash },
               cacheSet cache pk { nonce := n + 1 })
      ∧ cacheLookup (cacheSet cache pk { nonce := n + 1 }) pk = some { nonce := n + 1 })
    ∧ ∀ k, (signNonces accountId networkId pk blockHash receiverId actions k cache).Pairwise (· < ·)
        ∧ (signNonces accountId networkId pk blockHash receiverId actions k cache).Nodup := by
  refine ⟨⟨signTransaction_cache_hit accountId networkId env cache receiverId actions pk n hpk h,
    cacheLookup_set_self cache pk _⟩, ?_⟩
  intro k
  rw [signNonces_closed_form accountId networkId pk blockHash receiverId actions k cache n h]
  have hlt : ((List.range k).map (fun i => n + 1 + i)).Pairwise (· < ·) := by
    rw [List.pairwise_map]
    exact (List.pairwise_lt_range k).imp (fun hab => by omega)
  exact ⟨hlt, hlt.imp (fun hab => Nat.ne_of_lt hab)⟩

/-- Witness for C1: a concrete cache entry with nonce 5 signs with nonce 6,
and three successive attempts issue strictly increasing nonces. -/
theorem account_signTransaction_nonce_strictly_increasing_witness :
    cacheLookup [("ed25519:pk1", { nonce := 5 })] "ed25519:pk1" = some { nonce := 5 }
      ∧ (signNonces "alice" "testnet" "ed25519:pk1" "h" "bob" ["transfer"] 3
          [("ed25519:pk1", { nonce := 5 })]).Pairwise (· < ·) :=
  ⟨rfl,
    ((account_signTransaction_nonce_strictly_increasing "alice" "testnet" "ed25519:pk1"
      "h" "bob" ["transfer"] [("ed25519:pk1", { nonce := 5 })] 5
      { pubKey := some "ed25519:pk1", queryRes := .ok { nonce := 0 }, blockHash := "h" }
      rfl rfl).2 3).1⟩

/-! ## Attempt and executor step lemmas -/

theorem sasAttempt_sign_error (accountId networkId : String)
    (txHashOf : SignedTx → String) (receiverId : String) (actions : List String)
    (env : SendEnv) (st : Cache × Nat) (e : Err)
    (h : signTransaction accountId networkId
      { pubKey := env.pubKey, queryRes := env.queryRes, blockHash := env.blockHash }
      st.1 receiverId actions = .error e) :
    sasAttempt accountId networkId txHashOf receiverId actions env st = (.raise e, st) := by
  simp [sasAttempt, h]

theorem sasAttempt_send_ok (accountId networkId : String)
    (txHashOf : SignedTx → String) (receiverId : String) (actions : List String)
    (env : SendEnv) (st : Cache × Nat) (stx : SignedTx) (cache' : Cache)
    (outcome : FinalOutcome)
    (hsign : signTransaction accountId networkId
      { pubKey := env.pubKey, queryRes := env.queryRes, blockHash := env.blockHash }
      st.1 receiverId actions = .ok (stx, cache'))
    (hsend : env.sendResult = .ok outcome) :
    sasAttempt accountId networkId txHashOf receiverId actions env st
      = (.done outcome, (cache', st.2)) := by
  simp [sasAttempt, hsign, hsend]

theorem sasAttempt_send_invalid_nonce (accountId networkId : String)
    (txHashOf : SignedTx → String) (receiverId : String) (actions : List String)
    (env : SendEnv) (st : Cache × Nat) (stx : SignedTx) (cache' : Cache) (e : Err)
    (hsign : signTransaction accountId networkId
      { pubKey := env.pubKey, queryRes := env.queryRes, blockHash := env.blockHash }
      st.1 receiverId actions = .ok (stx, cache'))
    (hsend : env.sendResult = .error e) (he : e.type = some "InvalidNonce") :
    sasAttempt accountId networkId txHashOf receiverId actions env st
      = (.retry, (cacheDelete cache' stx.publicKey, st.2 + 1)) := by
  simp [sasAttempt, hsign, hsend, he]

theorem sasAttempt_send_expired (accountId networkId : String)
    (txHashOf : SignedTx → String) (receiverId : String) (actions : List String)
    (env : SendEnv) (st : Cache × Nat) (stx : SignedTx) (cache' : Cache) (e : Err)
    (hsign : signTransaction accountId networkId
      { pubKey := env.pubKey, queryRes := env.queryRes, blockHash := env.blockHash }
      st.1 receiverId actions = .ok (stx, cache'))
    (hsend : env.sendResult = .error e) (he : e.type = some "Expired") :
    sasAttempt accountId networkId txHashOf receiverId actions env st
      = (.retry, (cache', st.2)) := by
  have hne : e.type ≠ some "InvalidNonce" := by rw [he]; simp
  simp [sasAttempt, hsign, hsend, he, hne]

theorem sasAttempt_send_other (accountId networkId : String)
    (txHashOf : SignedTx → String) (receiverId : String) (actions : List String)
    (env : SendEnv) (st : Cache × Nat) (stx : SignedTx) (cache' : Cache) (e : Err)
    (hsign : signTransaction accountId networkId
      { pubKey := env.pubKey, queryRes := env.queryRes, blockHash := env.blockHash }
      st.1 receiverId actions = .ok (stx, cache'))
    (hsend : env.sendResult = .error e)
    (hn : e.type ≠ some "InvalidNonce") (hx : e.type ≠ some "Expired") :
    sasAttempt accountId networkId txHashOf receiverId actions env st
      = (.raise { e with context := some (txHashOf stx) }, (cache', st.2)) := by
  simp [sasAttempt, hsign, hsend, hn, hx]

theorem exponentialBackoff_step_done {σ α : Type} (step : Nat → σ → AttemptOut α × σ)
    (fuel i : Nat) (st st' : σ) (v : α) (h : step i st = (.done v, st')) :
    exponentialBackoff step (fuel + 1) i st = (.ok v, st', 1) := by
  simp [exponentialBackoff, h]

theorem exponentialBackoff_step_raise {σ α : Type} (step : Nat → σ → AttemptOut α × σ)
    (fuel i : Nat) (st st' : σ) (e : Err) (h : step i st = (.raise e, st')) :
    exponentialBackoff step (fuel + 1) i st = (.raise e, st', 1) := by
  simp [exponentialBackoff, h]

theorem exponentialBackoff_step_retry {σ α : Type} (step : Nat → σ → AttemptOut α × σ)
    (fuel i : Nat) (st st' : σ) (h : step i st = (.retry, st')) :
    exponentialBackoff step (fuel + 1) i st
      = ((exponentialBackoff step fuel (i + 1) st').1,
         (exponentialBackoff step fuel (i + 1) st').2.1,
         (exponentialBackoff step fuel (i + 1) st').2.2 + 1) := by
  rcases hrec : exponentialBackoff step fuel (i + 1) st' with ⟨r, st'', nn⟩
  simp [exponentialBackoff, h, hrec]

/-- Claim C2: on a node rejection with error type `InvalidNonce`, the
submission attempt deletes that public key's entry from
`accessKeyByPublicKeyCache` and yields the retry-signal (restarting from
key resolution) instead of raising; a submission rejected with
`InvalidNonce` exactly once and then accepted succeeds, with the cache
invalidated exactly once. -/
theorem account_invalid_nonce_invalidates_and_retries
    (accountId networkId : String) (txHashOf : SignedTx → String) :
    (∀ (receiverId : String) (actions : List String) (env : SendEnv)
        (st : Cache × Nat) (stx : SignedTx) (cache' : Cache) (e : Err),
      signTransaction accountId networkId
          { pubKey := env.pubKey, queryRes := env.queryRes, blockHash := env.blockHash }
          st.1 receiverId actions = .ok (stx, cache') →
      env.sendResult = .error e → e.type = some "InvalidNonce" →
        sasAttempt accountId networkId txHashOf receiverId actions env st
          = (.retry, (cacheDelete cache' stx.publicKey, st.2 + 1))
        ∧ cacheLookup (cacheDelete cache' stx.publicKey) stx.publicKey = none)
    ∧ (∀ (receiverId : String) (actions : List String) (env : Nat → SendEnv)
        (cache : Cache) (pk : String) (n : Nat) (ak2 : AccessKey) (e : Err)
        (outcome : FinalOutcome) (s h0 h1 : String) (q0 : Except Err AccessKey),
      env 0 = { pubKey := some pk, queryRes := q0, blockHash := h0,
                sendResult := .error e } →
      env 1 = { pubKey := some pk, queryRes := .ok ak2, blockHash := h1,
                sendResult := .ok outcome } →
      e.type = some "InvalidNonce" →
      cacheLookup cache pk = some { nonce := n } →
      outcome.status = .basic s →
        (signAndSendTransactionV2 accountId networkId txHashOf receiverId actions env cache).1
          = .ok outcome
        ∧ (signAndSendTransactionV2 accountId networkId txHashOf receiverId actions env cache).2.1.2
          = 1
        ∧ (signAndSendTransactionV2 accountId networkId txHashOf receiverId actions env cache).2.2
          = 2) := by
  constructor
  · intro receiverId actions env st stx cache' e hsign hsend he
    exact ⟨sasAttempt_send_invalid_nonce accountId networkId txHashOf receiverId actions
      env st stx cache' e hsign hsend he, cacheLookup_delete_self cache' stx.publicKey⟩
  · intro receiverId actions env cache pk n ak2 e outcome s h0 h1 q0 henv0 henv1 he hc hst
    have hsign0 : signTransaction accountId networkId
        { pubKey := (env 0).pubKey, queryRes := (env 0).queryRes, blockHash := (env 0).blockHash }
        cache receiverId actions
        = .ok ({ receiverId := receiverId, publicKey := pk, nonce := n + 1,
                 actions := actions, blockHash := (env 0).blockHash },
               cacheSet cache pk { nonce := n + 1 }) :=
      signTransaction_cache_hit accountId networkId _ cache receiverId actions pk n
        (by rw [henv0]) hc
    have hstep0 : sasAttempt accountId networkId txHashOf receiverId actions (env 0) (cache, 0)
        = (.retry, (cacheDelete (cacheSet cache pk { nonce := n + 1 }) pk, 1)) := by
      have h := sasAttempt_send_invalid_nonce accountId networkId txHashOf receiverId actions
        (env 0) (cache, 0) _ _ e hsign0 (by rw [henv0]) he
      simpa using h
    have hmiss : cacheLookup (cacheDelete (cacheSet cache pk { nonce := n + 1 }) pk) pk
        = none := cacheLookup_delete_self _ _
    have hsign1 : signTransaction accountId networkId
        { pubKey := (env 1).pubKey, queryRes := (env 1).queryRes, blockHash := (env 1).blockHash }
        (cacheDelete (cacheSet cache pk { nonce := n + 1 }) pk) receiverId actions
        = .ok ({ receiverId := receiverId, publicKey := pk, nonce := ak2.nonce + 1,
                 actions := actions, blockHash := (env 1).blockHash },
               cacheSet (cacheSet (cacheDelete (cacheSet cache pk { nonce := n + 1 }) pk) pk ak2)
                 pk { nonce := ak2.nonce + 1 }) :=
      signTransaction_cache_miss_query_ok accountId networkId _ _ receiverId actions pk ak2
        (by rw [henv1]) hmiss (by rw [henv1])
    have hstep1 : sasAttempt accountId networkId txHashOf receiverId actions (env 1)
        (cacheDelete (cacheSet cache pk { nonce := n + 1 }) pk, 1)
        = (.done outcome,
           (cacheSet (cacheSet (cacheDelete (cacheSet cache pk { nonce := n + 1 }) pk) pk ak2)
             pk { nonce := ak2.nonce + 1 }, 1)) := by
      have h := sasAttempt_send_ok accountId networkId txHashOf receiverId actions
        (env 1) (cacheDelete (cacheSet cache pk { nonce := n + 1 }) pk, 1) _ _ outcome
        hsign1 (by rw [henv1])
      simpa using h
    have hrun : exponentialBackoff
        (fun i st => sasAttempt accountId networkId txHashOf receiverId actions (env i) st)
        TX_NONCE_RETRY_NUMBER 0 (cache, 0)
        = (.ok outcome,
           (cacheSet (cacheSet (cacheDelete (cacheSet cache pk { nonce := n + 1 }) pk) pk ak2)
             pk { nonce := ak2.nonce + 1 }, 1), 2) := by
      show exponentialBackoff _ (10 + 1 + 1) 0 (cache, 0) = _
      rw [exponentialBackoff_step_retry _ (10 + 1) 0 (cache, 0) _ hstep0]
      rw [exponentialBackoff_step_done _ 10 (0 + 1) _ _ outcome hstep1]
    have hfinal : signAndSendTransactionV2 accountId networkId txHashOf receiverId actions env cache
        = (.ok outcome,
           (cacheSet (cacheSet (cacheDelete (cacheSet cache pk { nonce := n + 1 }) pk) pk ak2)
             pk { nonce := ak2.nonce + 1 }, 1), 2) := by
      simp only [signAndSendTransactionV2, hrun]
      simp [handleFinalStatus_basic outcome s hst]
    exact ⟨by rw [hfinal], by rw [hfinal], by rw [hfinal]⟩

/-- A concrete all-success outcome used by the scenario witnesses. -/
def successOutcome : FinalOutcome :=
  { status := .basic "SuccessValue",
    transaction_outcome :=
      { id := "tx1",
        outcome := { receipt_ids := [], logs := [], status := .basic "SuccessValue" } },
    receipts_outcome := [] }

/-- Witness for C2: a concrete submission rejected once with `InvalidNonce`
and then accepted succeeds with exactly one cache invalidation. -/
theorem account_invalid_nonce_invalidates_and_retries_witness :
    (typedError "nonce invalid" "InvalidNonce").type = some "InvalidNonce"
      ∧ (signAndSendTransactionV2 "alice" "testnet" (fun _ => "hash") "bob" ["transfer"]
          (fun i => if i = 0
            then { pubKey := some "pk", queryRes := .ok { nonce := 0 }, blockHash := "h0",
                   sendResult := .error (typedError "nonce invalid" "InvalidNonce") }
            else { pubKey := some "pk", queryRes := .ok { nonce := 9 }, blockHash := "h1",
                   sendResult := .ok successOutcome })
          [("pk", { nonce := 5 })]).2.1.2 = 1 :=
  ⟨rfl,
    ((account_invalid_nonce_invalidates_and_retries "alice" "testnet" (fun _ => "hash")).2
      "bob" ["transfer"] _ [("pk", { nonce := 5 })] "pk" 5 { nonce := 9 }
      (typedError "nonce invalid" "InvalidNonce") successOutcome "SuccessValue" "h0" "h1"
      (.ok { nonce := 0 }) rfl rfl rfl rfl rfl).2.1⟩

/-- Claim C3: on a node rejection with error type `Expired`, the submission
attempt yields the retry-signal while its rejection handling touches
neither the cache (the state stays exactly what signing left) nor the
invalidation count, so the access-key entry is never removed; a submission
rejected with `Expired` once and then accepted succeeds, the entry staying
cached throughout and the cache never being invalidated. -/
theorem account_expired_retries_without_invalidation
    (accountId networkId : String) (txHashOf : SignedTx → String) :
    (∀ (receiverId : String) (actions : List String) (env : SendEnv)
        (st : Cache × Nat) (stx : SignedTx) (cache' : Cache) (e : Err),
      signTransaction accountId networkId
          { pubKey := env.pubKey, queryRes := env.queryRes, blockHash := env.blockHash }
          st.1 receiverId actions = .ok (stx, cache') →
      env.sendResult = .error e → e.type = some "Expired" →
        sasAttempt accountId networkId txHashOf receiverId actions env st
          = (.retry, (cache', st.2)))
    ∧ (∀ (receiverId : String) (actions : List String) (env : Nat → SendEnv)
        (cache : Cache) (pk : String) (n : Nat) (e : Err)
        (outcome : FinalOutcome) (s h0 h1 : String) (q0 q1 : Except Err AccessKey),
      env 0 = { pubKey := some pk, queryRes := q0, blockHash := h0,
                sendResult := .error e } →
      env 1 = { pubKey := some pk, queryRes := q1, blockHash := h1,
                sendResult := .ok outcome } →
      e.type = some "Expired" →
      cacheLookup cache pk = some { nonce := n } →
      outcome.status = .basic s →
        (signAndSendTransactionV2 accountId networkId txHashOf receiverId actions env cache).1
          = .ok outcome
        ∧ (signAndSendTransactionV2 accountId networkId txHashOf receiverId actions env cache).2.1.2
          = 0
        ∧ cacheLookup
            (signAndSendTransactionV2 accountId networkId txHashOf receiverId actions env cache).2.1.1
            pk = some { nonce := n + 2 }) := by
  constructor
  · intro receiverId actions env st stx cache' e hsign hsend he
    exact sasAttempt_send_expired accountId networkId txHashOf receiverId actions
      env st stx cache' e hsign hsend he
  · intro receiverId actions env cache pk n e outcome s h0 h1 q0 q1 henv0 henv1 he hc hst
    have hsign0 : signTransaction accountId networkId
        { pubKey := (env 0).pubKey, queryRes := (env 0).queryRes, blockHash := (env 0).blockHash }
        cache receiverId actions
        = .ok ({ receiverId := receiverId, publicKey := pk, nonce := n + 1,
                 actions := actions, blockHash := (env 0).blockHash },
               cacheSet cache pk { nonce := n + 1 }) :=
      signTransaction_cache_hit accountId networkId _ cache receiverId actions pk n
        (by rw [henv0]) hc
    have hstep0 : sasAttempt accountId networkId txHashOf receiverId actions (env 0) (cache, 0)
        = (.retry, (cacheSet cache pk { nonce := n + 1 }, 0)) := by
      have h := sasAttempt_send_expired accountId networkId txHashOf receiverId actions
        (env 0) (cache, 0) _ _ e hsign0 (by rw [henv0]) he
      simpa using h
    have hsign1 : signTransaction accountId networkId
        { pubKey := (env 1).pubKey, queryRes := (env 1).queryRes, blockHash := (env 1).blockHash }
        (cacheSet cache pk { nonce := n + 1 }) receiverId actions
        = .ok ({ receiverId := receiverId, publicKey := pk, nonce := n + 1 + 1,
                 actions := actions, blockHash := (env 1).blockHash },
               cacheSet (cacheSet cache pk { nonce := n + 1 }) pk { nonce := n + 1 + 1 }) :=
      signTransaction_cache_hit accountId networkId _ _ receiverId actions pk (n + 1)
        (by rw [henv1]) (cacheLookup_set_self cache pk _)
    have hstep1 : sasAttempt accountId networkId txHashOf receiverId actions (env 1)
        (cacheSet cache pk { nonce := n + 1 }, 0)
        = (.done outcome,
           (cacheSet (cacheSet cache pk { nonce := n + 1 }) pk { nonce := n + 1 + 1 }, 0)) := by
      have h := sasAttempt_send_ok accountId networkId txHashOf receiverId actions
        (env 1) (cacheSet cache pk { nonce := n + 1 }, 0) _ _ outcome hsign1 (by rw [henv1])
      simpa using h
    have hrun : exponentialBackoff
        (fun i st => sasAttempt accountId networkId txHashOf receiverId actions (env i) st)
        TX_NONCE_RETRY_NUMBER 0 (cache, 0)
        = (.ok outcome,
           (cacheSet (cacheSet cache pk { nonce := n + 1 }) pk { nonce := n + 1 + 1 }, 0), 2) := by
      show exponentialBackoff _ (10 + 1 + 1) 0 (cache, 0) = _
      rw [exponentialBackoff_step_retry _ (10 + 1) 0 (cache, 0) _ hstep0]
      rw [exponentialBackoff_step_done _ 10 (0 + 1) _ _ outcome hstep1]
    have hfinal : signAndSendTransactionV2 accountId networkId txHashOf receiverId actions env cache
        = (.ok outcome,
           (cacheSet (cacheSet cache pk { nonce := n + 1 }) pk { nonce := n + 1 + 1 }, 0), 2) := by
      simp only [signAndSendTransactionV2, hrun]
      simp [handleFinalStatus_basic outcome s hst]
    refine ⟨by rw [hfinal], by rw [hfinal], ?_⟩
    rw [hfinal]
    exact cacheLookup_set_self _ pk _

/-- Witness for C3: a concrete submission rejected once with `Expired` and
then accepted succeeds with zero cache invalidations. -/
theorem account_expired_retries_without_invalidation_witness :
    (typedError "block hash expired" "Expired").type = some "Expired"
      ∧ (signAndSendTransactionV2 "alice" "testnet" (fun _ => "hash") "bob" ["transfer"]
          (fun i => if i = 0
            then { pubKey := some "pk", queryRes := .ok { nonce := 0 }, blockHash := "h0",
                   sendResult := .error (typedError "block hash expired" "Expired") }
            else { pubKey := some "pk", queryRes := .ok { nonce := 0 }, blockHash := "h1",
                   sendResult := .ok successOutcome })
          [("pk", { nonce := 5 })]).2.1.2 = 0 :=
  ⟨rfl,
    ((account_expired_retries_without_invalidation "alice" "testnet" (fun _ => "hash")).2
      "bob" ["transfer"] _ [("pk", { nonce := 5 })] "pk" 5
      (typedError "block hash expired" "Expired") successOutcome "SuccessValue" "h0" "h1"
      (.ok { nonce := 0 }) (.ok { nonce := 0 }) rfl rfl rfl rfl rfl).2.1⟩

/-- Claim C6: when key resolution yields not-found — the signer returns no
public key, or the access-key query fails with type
`AccessKeyDoesNotExist` — `Account.signTransaction` raises a `TypedError`
of kind `KeyNotFound`; any other failure of the access-key query
propagates unchanged; and inside `signAndSendTransaction` the raise
escapes the loop on the very first attempt, so the submission is never
retried. -/
theorem signTransaction_key_not_found_fatal (accountId networkId : String) :
    (∀ (env : SignEnv) (cache : Cache) (receiverId : String) (actions : List String),
      env.pubKey = none →
        signTransaction accountId networkId env cache receiverId actions
          = .error (keyNotFoundError accountId networkId))
    ∧ (∀ (env : SignEnv) (cache : Cache) (receiverId : String) (actions : List String)
        (pk : String) (e : Err),
      env.pubKey = some pk → cacheLookup cache pk = none → env.queryRes = .error e →
      e.type = some "AccessKeyDoesNotExist" →
        signTransaction accountId networkId env cache receiverId actions
          = .error (keyNotFoundError accountId networkId))
    ∧ (∀ (env : SignEnv) (cache : Cache) (receiverId : String) (actions : List String)
        (pk : String) (e : Err),
      env.pubKey = some pk → cacheLookup cache pk = none → env.queryRes = .error e →
      e.type ≠ some "AccessKeyDoesNotExist" →
        signTransaction accountId networkId env cache receiverId actions = .error e)
    ∧ (keyNotFoundError accountId networkId).type = some "KeyNotFound"
    ∧ (∀ (txHashOf : SignedTx → String) (receiverId : String) (actions : List String)
        (env : Nat → SendEnv) (cache : Cache),
      (env 0).pubKey = none →
        signAndSendTransactionV2 accountId networkId txHashOf receiverId actions env cache
          = (.error (keyNotFoundError accountId networkId), (cache, 0), 1)) := by
  refine ⟨?_, ?_, ?_, rfl, ?_⟩
  · intro env cache receiverId actions hpk
    simp [signTransaction, findAccessKey, hpk]
  · intro env cache receiverId actions pk e hpk hmiss hq he
    simp [signTransaction, findAccessKey, hpk, hmiss, hq, he]
  · intro env cache receiverId actions pk e hpk hmiss hq hne
    simp [signTransaction, findAccessKey, hpk, hmiss, hq, hne]
  · intro txHashOf receiverId actions env cache hpk0
    have hsign : signTransaction accountId networkId
        { pubKey := (env 0).pubKey, queryRes := (env 0).queryRes, blockHash := (env 0).blockHash }
        cache receiverId actions = .error (keyNotFoundError accountId networkId) := by
      simp [signTransaction, findAccessKey, hpk0]
    have hstep : sasAttempt accountId networkId txHashOf receiverId actions (env 0) (cache, 0)
        = (.raise (keyNotFoundError accountId networkId), (cache, 0)) :=
      sasAttempt_sign_error accountId networkId txHashOf receiverId actions (env 0)
        (cache, 0) _ hsign
    have hrun : exponentialBackoff
        (fun i st => sasAttempt accountId networkId txHashOf receiverId actions (env i) st)
        TX_NONCE_RETRY_NUMBER 0 (cache, 0)
        = (.raise (keyNotFoundError accountId networkId), (cache, 0), 1) := by
      show exponentialBackoff _ (11 + 1) 0 (cache, 0) = _
      exact exponentialBackoff_step_raise _ 11 0 (cache, 0) _ _ hstep
    simp only [signAndSendTransactionV2, hrun]

/-- Witness for C6: a signer with no key makes a concrete submission fail
with `KeyNotFound` on its only attempt. -/
theorem signTransaction_key_not_found_fatal_witness :
    (signAndSendTransactionV2 "alice" "testnet" (fun _ => "hash") "bob" ["transfer"]
        (fun _ => { pubKey := none, queryRes := .ok { nonce := 0 }, blockHash := "h0",
                    sendResult := .ok successOutcome })
        [])
      = (.error (keyNotFoundError "alice" "testnet"), ([], 0), 1) :=
  (signTransaction_key_not_found_fatal "alice" "testnet").2.2.2.2
    (fun _ => "hash") "bob" ["transfer"]
    (fun _ => { pubKey := none, queryRes := .ok { nonce := 0 }, blockHash := "h0",
                sendResult := .ok successOutcome })
    [] rfl

/-- Claim C5: when the access-key network query completes after a
concurrent resolution has already populated the cache entry for the same
public key, the network response is discarded and the cached entry is
returned with the cache untouched; two concurrent resolutions racing from
an empty entry leave exactly one cache entry for that key, and both
callers observe the same entry (the first writer's), hence the same nonce
lineage. -/
theorem findAccessKey_first_writer_wins :
    (∀ (cache : Cache) (pk : String) (cached resp : AccessKey),
      cacheLookup cache pk = some cached →
        findAccessKeyResume cache pk resp = (cached, cache))
    ∧ (∀ (cache0 : Cache) (pk : String) (r1 r2 : AccessKey),
      cacheLookup cache0 pk = none →
        (findAccessKeyResume cache0 pk r1).1 = r1
        ∧ findAccessKeyResume (findAccessKeyResume cache0 pk r1).2 pk r2
            = (r1, (findAccessKeyResume cache0 pk r1).2)
        ∧ cacheCountKey (findAccessKeyResume cache0 pk r1).2 pk = 1) := by
  constructor
  · intro cache pk cached resp h
    simp [findAccessKeyResume, h]
  · intro cache0 pk r1 r2 h
    have h1 : findAccessKeyResume cache0 pk r1 = (r1, cacheSet cache0 pk r1) := by
      simp [findAccessKeyResume, h]
    refine ⟨by rw [h1], ?_, ?_⟩
    · rw [h1]
      simp [findAccessKeyResume, cacheLookup_set_self cache0 pk r1]
    · rw [h1]
      exact cacheCountKey_set_of_lookup_none cache0 pk r1 h

/-- Witness for C5: a concrete race in which the second network response is
discarded in favour of the first writer's cached entry. -/
theorem findAccessKey_first_writer_wins_witness :
    (cacheLookup [] "pk" = none
      ∧ findAccessKeyResume (findAccessKeyResume [] "pk" { nonce := 3 }).2 "pk" { nonce := 8 }
          = ({ nonce := 3 }, (findAccessKeyResume [] "pk" { nonce := 3 }).2))
      ∧ cacheCountKey (findAccessKeyResume [] "pk" { nonce := 3 }).2 "pk" = 1 :=
  ⟨⟨rfl, (findAccessKey_first_writer_wins.2 [] "pk" { nonce := 3 } { nonce := 8 } rfl).2.1⟩,
    (findAccessKey_first_writer_wins.2 [] "pk" { nonce := 3 } { nonce := 8 } rfl).2.2⟩

/-- Claim C7: inside every `sendJsonRpc` attempt, an error of type
`TimeoutError` yields the retry-signal, with a warning emitted exactly
when the `NEAR_NO_LOGS` flag is unset; an error of any other type is
re-raised, and at the channel level such an error propagates out of
`sendJsonRpc` from the first attempt, with no further attempts at this
layer. -/
theorem sendJsonRpc_timeout_retries_other_errors_raise
    (getErrorType : String → String) (txFollow : Option String → String → Except Err JsLite)
    (account : String) :
    (∀ (noLogs : Bool) (proxyResp : Except Err JsLite) (e : Err),
      attemptBody getErrorType txFollow account proxyResp = .error e →
        (e.type = some "TimeoutError" →
          sendAttempt getErrorType txFollow account noLogs proxyResp = (.retry, !noLogs))
        ∧ (e.type ≠ some "TimeoutError" →
          sendAttempt getErrorType txFollow account noLogs proxyResp = (.raise e, false)))
    ∧ (∀ (method : String) (noLogs : Bool) (env : Nat → Except Err JsLite) (e : Err),
      attemptBody getErrorType txFollow account (env 0) = .error e →
      e.type ≠ some "TimeoutError" →
        sendJsonRpc method getErrorType txFollow account noLogs env = (.error e, 0, 1)) := by
  constructor
  · intro noLogs proxyResp e hbody
    exact ⟨fun he => by simp [sendAttempt, hbody, he],
      fun hne => by simp [sendAttempt, hbody, hne]⟩
  · intro method noLogs env e hbody hne
    have hraise : sendAttempt getErrorType txFollow account noLogs (env 0)
        = (.raise e, false) := by simp [sendAttempt, hbody, hne]
    have hrun : exponentialBackoff
        (fun (i : Nat) (warns : Nat) =>
          match sendAttempt getErrorType txFollow account noLogs (env i) with
          | (out, warned) => (out, if warned then warns + 1 else warns))
        REQUEST_RETRY_NUMBER 0 0
        = (.raise e, 0, 1) := by
      show exponentialBackoff _ (11 + 1) 0 0 = _
      refine exponentialBackoff_step_raise _ 11 0 0 0 e ?_
      simp [hraise]
    simp only [sendJsonRpc, hrun]

/-- Witness for C7: a concrete timeout classification is retried with a
warning, and a concrete non-timeout error is re-raised. -/
theorem sendJsonRpc_timeout_retries_other_errors_raise_witness :
    sendAttempt (fun _ => "UntypedError") (fun _ _ => .ok .jnull) "acct" false
        (.error (typedError "timed out" "TimeoutError"))
      = (.retry, true)
    ∧ sendJsonRpc "query" (fun _ => "UntypedError") (fun _ _ => .ok .jnull) "acct" false
        (fun _ => .error (typedError "denied" "AccessDenied"))
      = (.error (typedError "denied" "AccessDenied"), 0, 1) :=
  ⟨((sendJsonRpc_timeout_retries_other_errors_raise (fun _ => "UntypedError")
      (fun _ _ => .ok .jnull) "acct").1 false
      (.error (typedError "timed out" "TimeoutError"))
      (typedError "timed out" "TimeoutError") rfl).1 rfl,
    (sendJsonRpc_timeout_retries_other_errors_raise (fun _ => "UntypedError")
      (fun _ _ => .ok .jnull) "acct").2 "query" false
      (fun _ => .error (typedError "denied" "AccessDenied"))
      (typedError "denied" "AccessDenied") rfl (by simp [typedError])⟩

/-- A first attempt that completes with a value `v` (other than the
unreachable JS `undefined`) makes `sendJsonRpc` return `v` at once. -/
theorem sendJsonRpc_first_attempt_done (method : String)
    (getErrorType : String → String) (txFollow : Option String → String → Except Err JsLite)
    (account : String) (noLogs : Bool) (env : Nat → Except Err JsLite) (v : JsLite)
    (hbody : attemptBody getErrorType txFollow account (env 0) = .ok v)
    (hv : v ≠ .jundef) :
    sendJsonRpc method getErrorType txFollow account noLogs env = (.ok v, 0, 1) := by
  have hdone : sendAttempt getErrorType txFollow account noLogs (env 0)
      = (.done v, false) := by simp [sendAttempt, hbody]
  have hrun : exponentialBackoff
      (fun (i : Nat) (warns : Nat) =>
        match sendAttempt getErrorType txFollow account noLogs (env i) with
        | (out, warned) => (out, if warned then warns + 1 else warns))
      REQUEST_RETRY_NUMBER 0 0
      = (.ok v, 0, 1) := by
    show exponentialBackoff _ (11 + 1) 0 0 = _
    refine exponentialBackoff_step_done _ 11 0 0 0 v ?_
    simp [hdone]
  simp only [sendJsonRpc, hrun]
  cases v with
  | jnull => rfl
  | jundef => exact absurd rfl hv
  | jarr es => rfl
  | jobj o => rfl

/-- Claim C10: when the proxy's response is an array, the attempt does not
hand the array back: it issues the follow-up `tx` status query for the
array's first element and the provider's current account and returns that
query's result, which is also what `sendJsonRpc` then returns. -/
theorem sendJsonRpc_array_response_follow_up_tx
    (getErrorType : String → String) (txFollow : Option String → String → Except Err JsLite)
    (account : String) :
    (∀ (h : String) (t : List String),
      attemptBody getErrorType txFollow account (.ok (.jarr (h :: t)))
        = txFollow (some h) account)
    ∧ (∀ (method : String) (noLogs : Bool) (env : Nat → Except Err JsLite)
        (h : String) (t : List String) (v : JsLite),
      env 0 = .ok (.jarr (h :: t)) → txFollow (some h) account = .ok v → v ≠ .jundef →
        sendJsonRpc method getErrorType txFollow account noLogs env = (.ok v, 0, 1)
        ∧ (v ≠ .jarr (h :: t) →
          (sendJsonRpc method getErrorType txFollow account noLogs env).1
            ≠ .ok (.jarr (h :: t)))) := by
  constructor
  · intro h t
    simp [attemptBody]
  · intro method noLogs env h t v henv0 htx hv
    have hbody : attemptBody getErrorType txFollow account (env 0) = .ok v := by
      rw [henv0]
      simpa [attemptBody] using htx
    have hsend := sendJsonRpc_first_attempt_done method getErrorType txFollow account
      noLogs env v hbody hv
    refine ⟨hsend, fun hne => ?_⟩
    rw [hsend]
    intro hcontra
    exact hne (by injection hcontra)

/-- Witness for C10: a concrete array response is answered with the result
of the follow-up status query, not with the array. -/
theorem sendJsonRpc_array_response_follow_up_tx_witness :
    sendJsonRpc "signAndSendTransaction" (fun _ => "UntypedError")
        (fun hash acct => if hash = some "hash1" && acct = "acct"
          then .ok (.jobj { error := none, payload := "final outcome" })
          else .ok .jnull)
        "acct" false (fun _ => .ok (.jarr ["hash1", "hash2"]))
      = (.ok (.jobj { error := none, payload := "final outcome" }), 0, 1) :=
  (((sendJsonRpc_array_response_follow_up_tx (fun _ => "UntypedError")
      (fun hash acct => if hash = some "hash1" && acct = "acct"
        then .ok (.jobj { error := none, payload := "final outcome" })
        else .ok .jnull)
      "acct").2 "signAndSendTransaction" false
      (fun _ => .ok (.jarr ["hash1", "hash2"])) "hash1" ["hash2"]
      (.jobj { error := none, payload := "final outcome" })
      rfl rfl (by simp)).1)

/-- A proxy response classified as `TimeoutError` on every attempt. -/
def alwaysTimeoutResponse : JsLite :=
  .jobj { error := some { code := -32000, message := "Server error", data := .leaf "Timeout" },
          payload := "" }

/-- Claim C4, evaluated on the code: with every one of the 12 attempts
classified `TimeoutError`, the executor is exhausted, yet `sendJsonRpc`
returns the `null` retry-signal instead of raising `RetriesExceeded` — the
post-loop guard tests for `undefined` while the exhausted executor hands
back `null`, leaving the `RetriesExceeded` raise unreachable. -/
theorem sendJsonRpc_timeout_exhaustion_returns_null :
    sendJsonRpc "status" (fun _ => "UntypedError") (fun _ _ => .ok .jnull) "acct" false
      (fun _ => .ok alwaysTimeoutResponse)
      = (.ok .jnull, 12, 12)
    ∧ ∀ (msg : String),
      (.ok .jnull : Except Err JsLite) ≠ .error (typedError msg "RetriesExceeded") := by
  exact ⟨rfl, fun msg => by simp⟩

/-- A concrete outcome whose top-level `Failure` has the legacy shape with
an empty `error_message`. -/
def legacyEdgeOutcome : FinalOutcome :=
  { status := .obj [("Failure",
      .node [("error_message", .leaf ""), ("error_type", .leaf "T")])],
    transaction_outcome :=
      { id := "tx9",
        outcome := { receipt_ids := [], logs := [], status := .basic "SuccessValue" } },
    receipts_outcome := [] }

/-- Counterexample to claim C8: a top-level `Failure` of the legacy shape
whose `error_message` is the empty string.  The account path's truthiness
guard rejects it, so the thrown error comes from the general classifier:
its kind is `error_message`, not the payload's `error_type` value `T`, and
it is not built directly from the two fields. -/
theorem legacy_failure_empty_message_counterexample :
    handleFinalStatus legacyEdgeOutcome = .error (typedError "" "error_message")
    ∧ (typedError "" "error_message").type ≠ some "T" := by
  exact ⟨rfl, by simp [typedError]⟩

/-- Claim C8 amended: for every legacy-shaped payload — an object with
string fields `error_message` and `error_type` — the channel path of
`sendJsonRpc` builds the `TypedError` directly from the two fields (kind
is `error_type`, message is `error_message`); the account path of
`signAndSendTransaction` does so when both fields are non-empty (its
message then contains `error_message` after the transaction id), while an
empty field there falls through to the general classifier. -/
theorem legacy_error_shape_built_directly
    (getErrorType : String → String) (txFollow : Option String → String → Except Err JsLite)
    (account : String) :
    (∀ (code : Int) (msg payload : String) (fields : List (String × ErrTree)) (m t : String),
      assocLookup fields "error_message" = some (.leaf m) →
      assocLookup fields "error_type" = some (.leaf t) →
        attemptBody getErrorType txFollow account
          (.ok (.jobj { error := some { code := code, message := msg, data := .node fields },
                        payload := payload }))
          = .error (typedError m t))
    ∧ (∀ (result : FinalOutcome) (sfields ffields : List (String × ErrTree)) (m t : String),
      result.status = .obj sfields →
      assocLookup sfields "Failure" = some (.node ffields) →
      assocLookup ffields "error_message" = some (.leaf m) → m ≠ "" →
      assocLookup ffields "error_type" = some (.leaf t) → t ≠ "" →
        handleFinalStatus result
          = .error (typedError ("Transaction " ++ result.transaction_outcome.id
              ++ " failed. " ++ m) t)) := by
  constructor
  · intro code msg payload fields m t hm ht
    simp [attemptBody, hm, ht]
  · intro result sfields ffields m t hs hf hm hm0 ht ht0
    simp [handleFinalStatus, hs, hf, hm, ht, truthyField, ErrTree.jsString, hm0, ht0]

/-- A concrete legacy-shaped `error.data` payload. -/
def legacyWitnessData : ErrTree :=
  .node [("error_message", .leaf "boom"), ("error_type", .leaf "LegacyKind")]

/-- Witness for the amended C8: concrete legacy payloads on both paths. -/
theorem legacy_error_shape_built_directly_witness :
    attemptBody (fun _ => "UntypedError") (fun _ _ => .ok .jnull) "acct"
        (.ok (.jobj { error := some { code := 1, message := "err", data := legacyWitnessData },
                      payload := "" }))
      = .error (typedError "boom" "LegacyKind") :=
  (legacy_error_shape_built_directly (fun _ => "UntypedError") (fun _ _ => .ok .jnull)
    "acct").1 1 "err" ""
    [("error_message", .leaf "boom"), ("error_type", .leaf "LegacyKind")]
    "boom" "LegacyKind" rfl rfl

/-- The channel-path half of claim C8 on both paths is complemented by the
account path at non-empty fields; see the amended theorem above. -/
theorem legacy_failure_nonempty_fields_example :
    handleFinalStatus
        { legacyEdgeOutcome with
          status := .obj [("Failure",
            .node [("error_message", .leaf "boom"), ("error_type", .leaf "T")])] }
      = .error (typedError "Transaction tx9 failed. boom" "T") := by
  rfl

/-- The spec's classifier test vector: the structured payload
`(index 2, ActionError (kind (FunctionCallError (ExecutionError boom))))`
classifies to kind `ExecutionError` with message `boom`. -/
theorem parseRpcError_spec_vector :
    parseRpcError (.node [("index", .leaf "2"),
      ("ActionError", .node [("kind", .node [("FunctionCallError",
        .node [("ExecutionError", .leaf "boom")])])])])
      = typedError "boom" "ExecutionError" := by
  rfl
